import Mathlib

/-!
Shallow embedding of the QuickPoll backend (src/backend/app) and proofs of
the specification's claims about it.

The repository has two cores:
* `websocket_manager.py` — the `ConnectionManager` broadcast registry: a set
  of live WebSocket observers, a lock, and best-effort fan-out.
* `main.py` — the HTTP/WebSocket endpoints over a SQL store of polls and
  poll options (`models.py`), serialized through `schemas.py`.

Observers are modelled as natural numbers.  The Python `set` of connections
is modelled as a duplicate-free `List Nat` (insertion-ordered; `set.add` is
`addObs`, `set.discard` is `discardObs`, `list(s)` is the list itself).
Exceptions are modelled with `Except`; `await connection.send_json(...)`
either succeeds or raises a `TransportError`, decided by an oracle
`fail : Nat → Bool` supplied to the model.  The SQL store (two tables,
`poll` and `poll_option`, with autoincrement primary keys) is modelled as
`DB`: two lists in insertion order plus the next primary-key values and a
clock for `created_at`.
-/

/-- A transport-level failure raised by a WebSocket send or accept. -/
inductive TransportError where
  | te
deriving Repr, DecidableEq

namespace ConnectionManager

/-- Python set add, `self._connections.add(ws)`: no duplicate is added. -/
def addObs (s : List Nat) (o : Nat) : List Nat :=
  if o ∈ s then s else o :: s

/-- Python set discard, `self._connections.discard(ws)`. -/
def discardObs (s : List Nat) (o : Nat) : List Nat :=
  s.filter (fun y => y ≠ o)

/-- From `websocket_manager.py` lines 16–19: `connect` first awaits
`websocket.accept()` (the transport handshake, which may raise), then adds
the socket to `self._connections` under the lock.  The handshake's outcome
is passed in as `acceptResult`. -/
def connect (acceptResult : Except TransportError Unit) (conns : List Nat)
    (ws : Nat) : Except TransportError (List Nat) :=
  match acceptResult with
  | .error e => .error e
  | .ok _ => .ok (addObs conns ws)

/-- From `websocket_manager.py` lines 21–23: `disconnect` discards the socket. -/
def disconnect (conns : List Nat) (ws : Nat) : List Nat :=
  discardObs conns ws

/-- One send, `await connection.send_json(message)`: succeeds or raises, as decided by
the failure oracle. -/
def sendJson (fail : Nat → Bool) (o : Nat) : Except TransportError Unit :=
  if fail o then .error .te else .ok ()

/-- Python `try: body except Exception: handler`. -/
def tryExcept {α : Type} (body : Except TransportError α)
    (handler : TransportError → Except TransportError α) :
    Except TransportError α :=
  match body with
  | .ok a => .ok a
  | .error e => handler e

/-- The delivery loop of `broadcast` (lines 30–35): for each connection in
the snapshot, try one `send_json`; on any exception add the connection to
the `stale` set.  Without the `try/except` a send error would propagate to
the caller. -/
def deliveryPass (fail : Nat → Bool) :
    List Nat → List Nat → Except TransportError (List Nat)
  | [], stale => .ok stale
  | c :: rest, stale =>
    match tryExcept (do let _ ← sendJson fail c; pure stale)
        (fun _ => .ok (addObs stale c)) with
    | .ok stale' => deliveryPass fail rest stale'
    | .error e => .error e

/-- The body of `broadcast`, split between the snapshot-time connection set and the
connection set at cleanup time (`cur`): the lock is released before the
delivery loop, so between the snapshot (lines 27–28) and the stale cleanup
(lines 37–40) the live set may have been changed by concurrent
`connect`/`disconnect` calls. -/
def broadcastFrom (snapshot : List Nat) (fail : Nat → Bool) (cur : List Nat) :
    Except TransportError (List Nat × List Nat) :=
  match deliveryPass fail snapshot [] with
  | .error e => .error e
  | .ok stale =>
    let final := if stale.isEmpty then cur else stale.foldl discardObs cur
    .ok (final, stale)

/-- From `websocket_manager.py` lines 25–40, with no concurrent membership change
between snapshot and cleanup: snapshot the live set under the lock, deliver
to every snapshotted connection, then discard every stale connection under
the lock.  Returns the new live set and the stale set. -/
def broadcast (conns : List Nat) (fail : Nat → Bool) :
    Except TransportError (List Nat × List Nat) :=
  broadcastFrom conns fail conns

/-- The per-connection step the delivery loop folds over the snapshot. -/
def staleStep (fail : Nat → Bool) (st : List Nat) (c : Nat) : List Nat :=
  if fail c then addObs st c else st

end ConnectionManager

/-! ### Registry trace model

`main.py` drives the registry through an arbitrary interleaving of
`manager.connect` / `manager.disconnect` (one per WebSocket client) and
`manager.broadcast` (one per committed mutation).  `RegOp` is one such
operation; a broadcast op carries an event identifier and the failure
oracle for that delivery pass.  The lock in `ConnectionManager` serializes
all membership changes, so a trace is a sequence of atomic operations. -/

/-- One serialized registry operation. -/
inductive RegOp where
  | connect : Nat → RegOp
  | disconnect : Nat → RegOp
  | broadcast : Nat → (Nat → Bool) → RegOp

/-- Registry state plus the log of delivery attempts `(event, observer)`
made so far. -/
structure RegState where
  conns : List Nat
  log : List (Nat × Nat)

def regInit : RegState := ⟨[], []⟩

/-- Apply one registry operation.  A broadcast appends one delivery attempt
per snapshotted connection to the log (the loop in `broadcast` sends the
event once to each element of `connections`). -/
def applyReg (s : RegState) : RegOp → RegState
  | .connect o => { s with conns := ConnectionManager.addObs s.conns o }
  | .disconnect o => { s with conns := ConnectionManager.disconnect s.conns o }
  | .broadcast e fail =>
    match ConnectionManager.broadcast s.conns fail with
    | .ok (final, _) =>
      { conns := final, log := s.log ++ s.conns.map (fun c => (e, c)) }
    | .error _ => s

def runReg (ops : List RegOp) : RegState := ops.foldl applyReg regInit

/-! ### Store and API model (`models.py`, `schemas.py`, `main.py`) -/

/-- A `Poll` row of `models.py`: autoincrement `id`, `question`, optional
`description`, `created_at` timestamp (modelled as a Nat drawn from the
`DB` clock), `likes` counter defaulting to 0. -/
structure Poll where
  id : Nat
  question : String
  description : Option String
  created_at : Nat
  likes : Nat
deriving Repr, DecidableEq

/-- A `PollOption` row of `models.py`: autoincrement `id`, `text`, `votes`
counter defaulting to 0, foreign key `poll_id`. -/
structure PollOption where
  id : Nat
  text : String
  votes : Nat
  poll_id : Nat
deriving Repr, DecidableEq

/-- The SQLite store: the two tables in insertion order, the next
autoincrement primary keys, and a clock supplying `created_at` values. -/
structure DB where
  polls : List Poll
  options : List PollOption
  nextPollId : Nat
  nextOptionId : Nat
  clock : Nat
deriving Repr, DecidableEq

/-- FastAPI `HTTPException(status_code=..., detail=...)`. -/
structure HTTPException where
  status_code : Nat
  detail : String
deriving Repr, DecidableEq

/-- Schema `PollOptionRead` of `schemas.py`. -/
structure PollOptionRead where
  id : Nat
  text : String
  votes : Nat
deriving Repr, DecidableEq

/-- Schema `PollRead` of `schemas.py`: the serialized poll payload. -/
structure PollRead where
  id : Nat
  question : String
  description : Option String
  likes : Nat
  created_at : Nat
  options : List PollOptionRead
deriving Repr, DecidableEq

/-- The tagged event payloads pushed over the WebSocket (`main.py` lines
76, 105, 118, 129–134). -/
inductive Event where
  | poll_created (poll : PollRead)
  | poll_updated (poll : PollRead)
  | poll_snapshot (polls : List PollRead)
deriving Repr, DecidableEq

/-- Python `str.strip()` on the character list, one end: drop leading
whitespace. -/
def dropWS : List Char → List Char
  | [] => []
  | c :: rest => if c.isWhitespace then dropWS rest else c :: rest

/-- Python `str.strip()`: remove leading and trailing whitespace.  Written
by structural recursion on the character list so that it evaluates under
kernel reduction (core `String.trim` does not). -/
def pyStrip (s : String) : String :=
  ⟨(dropWS (dropWS s.data.reverse).reverse)⟩

def serialize_option (o : PollOption) : PollOptionRead :=
  ⟨o.id, o.text, o.votes⟩

/-- From `main.py`, `serialize_poll` / `PollRead.model_validate`: the poll row
together with its options (the rows of `poll_option` whose foreign key
points at it, in insertion order). -/
def serialize_poll (db : DB) (p : Poll) : PollRead :=
  ⟨p.id, p.question, p.description, p.likes, p.created_at,
   (db.options.filter (fun o => o.poll_id == p.id)).map serialize_option⟩

/-- From `main.py` lines 41–47, `get_poll_with_options`: select the poll by id,
404 if absent. -/
def get_poll_with_options (db : DB) (poll_id : Nat) :
    Except HTTPException Poll :=
  match db.polls.find? (fun p => p.id == poll_id) with
  | none => .error ⟨404, "Poll not found"⟩
  | some p => .ok p

/-- Insertion into a list kept ordered by `created_at` descending. -/
def insertDesc (p : Poll) : List Poll → List Poll
  | [] => [p]
  | q :: rest =>
    if q.created_at ≤ p.created_at then p :: q :: rest
    else q :: insertDesc p rest

/-- Query `select(Poll).order_by(Poll.created_at.desc())`. -/
def sortByCreatedDesc (l : List Poll) : List Poll :=
  l.foldr insertDesc []

/-- From `main.py` lines 55–58, `list_polls`: all polls, newest first,
serialized. -/
def list_polls (db : DB) : List PollRead :=
  (sortByCreatedDesc db.polls).map (serialize_poll db)

/-- From `main.py` lines 61–78, `create_poll`:
strip each option and keep the non-empty ones; 400 if fewer than two
remain; otherwise insert the poll (question stripped, likes 0) and its
options (votes 0) in one commit, re-select, serialize, and broadcast
`poll_created`.  The successful result carries the new store, the response
payload, and the events handed to `manager.broadcast`. -/
def create_poll (db : DB) (question : String) (description : Option String)
    (optionTexts : List String) :
    Except HTTPException (DB × PollRead × List Event) :=
  let options := (optionTexts.filter (fun o => pyStrip o != "")).map pyStrip
  if options.length < 2 then
    .error ⟨400, "A poll requires at least two options."⟩
  else
    let pid := db.nextPollId
    let newPoll : Poll := ⟨pid, pyStrip question, description, db.clock, 0⟩
    let newOptions := options.enum.map
      (fun it => ⟨db.nextOptionId + it.1, it.2, 0, pid⟩)
    let db' : DB := ⟨db.polls ++ [newPoll], db.options ++ newOptions,
      db.nextPollId + 1, db.nextOptionId + options.length, db.clock + 1⟩
    match get_poll_with_options db' pid with
    | .error e => .error e
    | .ok p2 =>
      let serialized := serialize_poll db' p2
      .ok (db', serialized, [Event.poll_created serialized])

/-- From `main.py` lines 87–106, `vote_on_poll`:
404 if the poll is absent; `session.get(PollOption, option_id)` then 400 if
the option is absent or its `poll_id` differs from the poll's id; otherwise
increment that option's votes, commit, re-select, serialize, and broadcast
`poll_updated`. -/
def vote_on_poll (db : DB) (poll_id : Nat) (option_id : Nat) :
    Except HTTPException (DB × PollRead × List Event) :=
  match get_poll_with_options db poll_id with
  | .error e => .error e
  | .ok poll =>
    match db.options.find? (fun o => o.id == option_id) with
    | none => .error ⟨400, "Option does not belong to this poll."⟩
    | some opt =>
      if opt.poll_id != poll.id then
        .error ⟨400, "Option does not belong to this poll."⟩
      else
        let db' : DB := { db with
          options := db.options.map (fun o =>
            if o.id == option_id then { o with votes := o.votes + 1 } else o) }
        match get_poll_with_options db' poll_id with
        | .error e => .error e
        | .ok p2 =>
          let serialized := serialize_poll db' p2
          .ok (db', serialized, [Event.poll_updated serialized])

/-- From `main.py` lines 109–119, `like_poll`: 404 if the poll is absent;
otherwise increment its likes, commit, re-select, serialize, and broadcast
`poll_updated`. -/
def like_poll (db : DB) (poll_id : Nat) :
    Except HTTPException (DB × PollRead × List Event) :=
  match get_poll_with_options db poll_id with
  | .error e => .error e
  | .ok _poll =>
    let db' : DB := { db with
      polls := db.polls.map (fun p =>
        if p.id == poll_id then { p with likes := p.likes + 1 } else p) }
    match get_poll_with_options db' poll_id with
    | .error e => .error e
    | .ok p2 =>
      let serialized := serialize_poll db' p2
      .ok (db', serialized, [Event.poll_updated serialized])

/-- HTTP status of a response, if it is an error response. -/
def statusOf {α : Type} : Except HTTPException α → Option Nat
  | .error e => some e.status_code
  | .ok _ => none

/-- The events a mutating endpoint hands to `manager.broadcast`: none when
the request aborts with an `HTTPException` (the raise happens before any
broadcast call). -/
def eventsOf : Except HTTPException (DB × PollRead × List Event) → List Event
  | .ok r => r.2.2
  | .error _ => []

/-- The store after a request: an `HTTPException` aborts the request before
`session.commit()`, leaving the store as it was. -/
def dbOf (db : DB) : Except HTTPException (DB × PollRead × List Event) → DB
  | .ok r => r.1
  | .error _ => db

/-- One mutating API call. -/
inductive MutOp where
  | create (question : String) (description : Option String)
      (optionTexts : List String)
  | vote (poll_id : Nat) (option_id : Nat)
  | like (poll_id : Nat)

/-- The store after one mutating API call (failed calls leave it
unchanged). -/
def applyMut (db : DB) : MutOp → DB
  | .create q d opts => dbOf db (create_poll db q d opts)
  | .vote pid oid => dbOf db (vote_on_poll db pid oid)
  | .like pid => dbOf db (like_poll db pid)

def runMuts (db : DB) (ops : List MutOp) : DB := ops.foldl applyMut db

/-- The `likes` counter of the poll with the given id, if present. -/
def likesOf (db : DB) (pid : Nat) : Option Nat :=
  (db.polls.find? (fun p => p.id == pid)).map Poll.likes

/-- The `votes` counter of the option with the given id, if present. -/
def votesOf (db : DB) (oid : Nat) : Option Nat :=
  (db.options.find? (fun o => o.id == oid)).map PollOption.votes

/-! ### The WebSocket endpoint (`main.py` lines 122–142)

The endpoint's straight-line effect sequence before the receive loop:
`await manager.connect(websocket)` — which itself first performs the
transport handshake `websocket.accept()` and then registers the socket —
followed by the direct `websocket.send_json` of the `poll_snapshot` event,
followed by the `receive_text` loop. -/

inductive WsEffect where
  | acceptHandshake (ws : Nat)
  | registerObserver (ws : Nat)
  | directSend (ws : Nat) (ev : Event)
  | receiveText (ws : Nat)
deriving Repr, DecidableEq

/-- The effects `websocket_endpoint` performs, in program order, up to and
including the first receive. -/
def websocket_endpoint_effects (db : DB) (ws : Nat) : List WsEffect :=
  [WsEffect.acceptHandshake ws, WsEffect.registerObserver ws,
   WsEffect.directSend ws (Event.poll_snapshot (list_polls db)),
   WsEffect.receiveText ws]

def isRegisterEffect (ws : Nat) : WsEffect → Bool
  | .registerObserver w => w == ws
  | _ => false

def isSnapshotSendEffect (ws : Nat) : WsEffect → Bool
  | .directSend w (Event.poll_snapshot _) => w == ws
  | _ => false

/-- Position of the registration of `ws` in an effect sequence. -/
def registerIdx (effs : List WsEffect) (ws : Nat) : Nat :=
  effs.findIdx (isRegisterEffect ws)

/-- Position of the direct `poll_snapshot` send to `ws` in an effect
sequence. -/
def snapshotIdx (effs : List WsEffect) (ws : Nat) : Nat :=
  effs.findIdx (isSnapshotSendEffect ws)

/-! ### Concrete stores for witnesses and counterexamples -/

/-- A fresh, empty store. -/
def dbEmpty : DB := ⟨[], [], 1, 1, 0⟩

/-- A store with one poll (id 1, two options ids 1 and 2) and one other
poll (id 2, options ids 3 and 4). -/
def dbTwoPolls : DB :=
  ⟨[⟨1, "Tea or coffee?", none, 0, 0⟩, ⟨2, "Cats or dogs?", none, 1, 0⟩],
   [⟨1, "Tea", 0, 1⟩, ⟨2, "Coffee", 0, 1⟩, ⟨3, "Cats", 0, 2⟩, ⟨4, "Dogs", 0, 2⟩],
   3, 5, 2⟩

/-- The store `dbTwoPolls` after a successful vote on option 1 of poll 1. -/
def dbTwoPollsVote1 : DB :=
  ⟨[⟨1, "Tea or coffee?", none, 0, 0⟩, ⟨2, "Cats or dogs?", none, 1, 0⟩],
   [⟨1, "Tea", 1, 1⟩, ⟨2, "Coffee", 0, 1⟩, ⟨3, "Cats", 0, 2⟩, ⟨4, "Dogs", 0, 2⟩],
   3, 5, 2⟩

/-- The response payload of that vote. -/
def prTeaVote1 : PollRead :=
  ⟨1, "Tea or coffee?", none, 0, 0, [⟨1, "Tea", 1⟩, ⟨2, "Coffee", 0⟩]⟩

/-- The store `dbTwoPolls` after a successful like of poll 1. -/
def dbTwoPollsLike1 : DB :=
  ⟨[⟨1, "Tea or coffee?", none, 0, 1⟩, ⟨2, "Cats or dogs?", none, 1, 0⟩],
   [⟨1, "Tea", 0, 1⟩, ⟨2, "Coffee", 0, 1⟩, ⟨3, "Cats", 0, 2⟩, ⟨4, "Dogs", 0, 2⟩],
   3, 5, 2⟩

/-- The response payload of that like. -/
def prTeaLike1 : PollRead :=
  ⟨1, "Tea or coffee?", none, 1, 0, [⟨1, "Tea", 0⟩, ⟨2, "Coffee", 0⟩]⟩

/-- The question stored in a successful create response, if any. -/
def questionOfResult :
    Except HTTPException (DB × PollRead × List Event) → Option String
  | .ok r => some r.2.1.question
  | .error _ => none

/-- The store after `create_poll dbEmpty " Q " none ["a", "b"]`. -/
def dbCreateQ : DB :=
  ⟨[⟨1, "Q", none, 0, 0⟩], [⟨1, "a", 0, 1⟩, ⟨2, "b", 0, 1⟩], 2, 3, 1⟩

/-- The response payload of that create. -/
def prCreateQ : PollRead :=
  ⟨1, "Q", none, 0, 0, [⟨1, "a", 0⟩, ⟨2, "b", 0⟩]⟩

/-! ## Theorems -/

namespace ConnectionManager

theorem mem_addObs {s : List Nat} {o x : Nat} :
    x ∈ addObs s o ↔ x ∈ s ∨ x = o := by
  unfold addObs
  split
  · rename_i h
    constructor
    · exact fun hx => Or.inl hx
    · rintro (hx | rfl)
      · exact hx
      · exact h
  · simp [or_comm]

theorem mem_discardObs {s : List Nat} {o x : Nat} :
    x ∈ discardObs s o ↔ x ∈ s ∧ x ≠ o := by
  simp [discardObs]

theorem nodup_addObs {s : List Nat} {o : Nat} (h : s.Nodup) :
    (addObs s o).Nodup := by
  unfold addObs
  split
  · exact h
  · exact List.Nodup.cons (by assumption) h

theorem nodup_discardObs {s : List Nat} {o : Nat} (h : s.Nodup) :
    (discardObs s o).Nodup :=
  List.Nodup.filter _ h

theorem deliveryPass_eq (fail : Nat → Bool) :
    ∀ (conns stale : List Nat),
      deliveryPass fail conns stale = .ok (conns.foldl (staleStep fail) stale) := by
  intro conns
  induction conns with
  | nil => intro stale; rfl
  | cons c rest ih =>
    intro stale
    by_cases h : fail c = true
    · simp [deliveryPass, tryExcept, sendJson, h, List.foldl_cons, staleStep, ih,
        Except.bind]
    · simp [deliveryPass, tryExcept, sendJson, h, List.foldl_cons, staleStep, ih,
        Except.bind]

theorem mem_foldl_staleStep (fail : Nat → Bool) :
    ∀ (conns stale : List Nat) (x : Nat),
      x ∈ conns.foldl (staleStep fail) stale ↔
        x ∈ stale ∨ (x ∈ conns ∧ fail x = true) := by
  intro conns
  induction conns with
  | nil => simp
  | cons c rest ih =>
    intro stale x
    rw [List.foldl_cons, ih]
    unfold staleStep
    by_cases hc : fail c = true
    · simp only [hc, if_true, mem_addObs, List.mem_cons]
      constructor
      · rintro ((hx | rfl) | ⟨hx, hf⟩)
        · exact Or.inl hx
        · exact Or.inr ⟨Or.inl rfl, hc⟩
        · exact Or.inr ⟨Or.inr hx, hf⟩
      · rintro (hx | ⟨(rfl | hx), hf⟩)
        · exact Or.inl (Or.inl hx)
        · exact Or.inl (Or.inr rfl)
        · exact Or.inr ⟨hx, hf⟩
    · simp only [hc, if_false, List.mem_cons]
      constructor
      · rintro (hx | ⟨hx, hf⟩)
        · exact Or.inl hx
        · exact Or.inr ⟨Or.inr hx, hf⟩
      · rintro (hx | ⟨(rfl | hx), hf⟩)
        · exact Or.inl hx
        · exact absurd hf (by simpa using hc)
        · exact Or.inr ⟨hx, hf⟩

theorem mem_foldl_discardObs :
    ∀ (stale cur : List Nat) (x : Nat),
      x ∈ stale.foldl discardObs cur ↔ x ∈ cur ∧ x ∉ stale := by
  intro stale
  induction stale with
  | nil => simp
  | cons a rest ih =>
    intro cur x
    rw [List.foldl_cons, ih, mem_discardObs]
    simp only [List.mem_cons]
    tauto

theorem broadcastFrom_eq (snapshot : List Nat) (fail : Nat → Bool)
    (cur : List Nat) :
    broadcastFrom snapshot fail cur =
      .ok ((snapshot.foldl (staleStep fail) []).foldl discardObs cur,
           snapshot.foldl (staleStep fail) []) := by
  unfold broadcastFrom
  rw [deliveryPass_eq]
  by_cases h : (snapshot.foldl (staleStep fail) []).isEmpty = true
  · have h' : snapshot.foldl (staleStep fail) [] = [] :=
      List.isEmpty_iff.mp h
    simp [h, h']
  · simp [h]

end ConnectionManager

theorem applyReg_broadcast (s : RegState) (e : Nat) (fail : Nat → Bool) :
    applyReg s (.broadcast e fail) =
      { conns := (s.conns.foldl (ConnectionManager.staleStep fail) []).foldl
          ConnectionManager.discardObs s.conns,
        log := s.log ++ s.conns.map (fun c => (e, c)) } := by
  simp only [applyReg, ConnectionManager.broadcast,
    ConnectionManager.broadcastFrom_eq]

theorem nodup_foldl_discardObs :
    ∀ (stale cur : List Nat), cur.Nodup →
      (stale.foldl ConnectionManager.discardObs cur).Nodup := by
  intro stale
  induction stale with
  | nil => intro cur h; exact h
  | cons a rest ih =>
    intro cur h
    rw [List.foldl_cons]
    exact ih _ (ConnectionManager.nodup_discardObs h)

theorem nodup_applyReg {s : RegState} (h : s.conns.Nodup) (op : RegOp) :
    ((applyReg s op).conns).Nodup := by
  cases op with
  | connect o => exact ConnectionManager.nodup_addObs h
  | disconnect o => exact ConnectionManager.nodup_discardObs h
  | broadcast e fail =>
    rw [applyReg_broadcast]
    exact nodup_foldl_discardObs _ _ h

theorem nodup_runReg (ops : List RegOp) : (runReg ops).conns.Nodup := by
  suffices h : ∀ (s : RegState), s.conns.Nodup →
      (ops.foldl applyReg s).conns.Nodup by
    exact h regInit List.nodup_nil
  induction ops with
  | nil => intro s hs; exact hs
  | cons op rest ih =>
    intro s hs
    exact ih _ (nodup_applyReg hs op)

theorem count_map_pair (e o : Nat) :
    ∀ (l : List Nat), (l.map (fun c => (e, c))).count (e, o) = l.count o := by
  intro l
  induction l with
  | nil => rfl
  | cons c rest ih =>
    simp only [List.map_cons, List.count_cons, ih, Prod.mk.injEq]
    by_cases h : c = o
    · simp [h]
    · simp [h]

/-- Claim C4 counterexample: the registry's `connect` CAN fail — its first
action is `await websocket.accept()`, the transport handshake, performed
inside `connect` itself rather than by the caller (`main.py` line 124 calls
`manager.connect(websocket)` on a not-yet-accepted socket).  When the
handshake raises, `connect` raises. -/
theorem C4_counterexample_connect_can_fail :
    ConnectionManager.connect (.error .te) [] 0 = .error .te := rfl

/-- Claim C4 (corrected): `connect` itself performs the transport-level
handshake (`websocket.accept()`) and therefore fails exactly when the
handshake fails; on handshake success the remaining registration is pure
bookkeeping that cannot fail, adds the observer to the live set, and the
observer is immediately visible in the resulting set. -/
theorem C4_amended_connect_performs_handshake
    (a : Except TransportError Unit) (conns : List Nat) (ws : Nat) :
    (a = .ok () →
      ConnectionManager.connect a conns ws =
        .ok (ConnectionManager.addObs conns ws) ∧
      ws ∈ ConnectionManager.addObs conns ws) ∧
    (∀ e, a = .error e → ConnectionManager.connect a conns ws = .error e) := by
  constructor
  · rintro rfl
    exact ⟨rfl, ConnectionManager.mem_addObs.mpr (Or.inr rfl)⟩
  · rintro e rfl
    rfl

theorem C4_amended_witness :
    ((Except.ok () : Except TransportError Unit) = .ok () ∧
      (ConnectionManager.connect (.ok ()) [3] 5 =
          .ok (ConnectionManager.addObs [3] 5) ∧
        5 ∈ ConnectionManager.addObs [3] 5)) ∧
    ((Except.error .te : Except TransportError Unit) = .error .te ∧
      ConnectionManager.connect (.error .te) [3] 5 = .error .te) :=
  ⟨⟨rfl, (C4_amended_connect_performs_handshake (.ok ()) [3] 5).1 rfl⟩,
   ⟨rfl, (C4_amended_connect_performs_handshake (.error .te) [3] 5).2 .te rfl⟩⟩

/-- Claim C5: for every `broadcast(event)` call, broadcast returns normally
(never surfaces a delivery failure), the stale set is exactly the set of
snapshotted observers whose delivery attempt failed, and the resulting live
set is exactly the snapshotted set minus those stale observers. -/
theorem C5_broadcast_contains_failures_and_removes_stale
    (conns : List Nat) (fail : Nat → Bool) :
    ∃ final stale,
      ConnectionManager.broadcast conns fail = .ok (final, stale) ∧
      (∀ o, o ∈ stale ↔ o ∈ conns ∧ fail o = true) ∧
      (∀ o, o ∈ final ↔ o ∈ conns ∧ fail o = false) := by
  refine ⟨(conns.foldl (ConnectionManager.staleStep fail) []).foldl
      ConnectionManager.discardObs conns,
    conns.foldl (ConnectionManager.staleStep fail) [], ?_, ?_, ?_⟩
  · unfold ConnectionManager.broadcast
    exact ConnectionManager.broadcastFrom_eq conns fail conns
  · intro o
    rw [ConnectionManager.mem_foldl_staleStep]
    simp
  · intro o
    rw [ConnectionManager.mem_foldl_discardObs,
      ConnectionManager.mem_foldl_staleStep]
    simp only [List.not_mem_nil, false_or]
    constructor
    · rintro ⟨hc, hn⟩
      refine ⟨hc, ?_⟩
      cases hf : fail o
      · rfl
      · exact absurd ⟨hc, hf⟩ hn
    · rintro ⟨hc, hf⟩
      refine ⟨hc, fun hmem => ?_⟩
      rw [hf] at hmem
      exact Bool.false_ne_true hmem.2

/-- Claim C10: a `broadcast(event)` call never adds observers; the only
observers it removes are ones whose own delivery attempt in this call's
delivery pass failed; an observer present at cleanup time that was not in
the snapshot (it connected while the delivery loop was running) or whose
delivery succeeded is never removed by this broadcast's stale cleanup. -/
theorem C10_broadcast_only_removes_failed
    (snapshot : List Nat) (fail : Nat → Bool) (cur : List Nat) :
    ∃ final stale,
      ConnectionManager.broadcastFrom snapshot fail cur = .ok (final, stale) ∧
      (∀ o, o ∈ final → o ∈ cur) ∧
      (∀ o, o ∈ cur → o ∉ final → o ∈ snapshot ∧ fail o = true) ∧
      (∀ o, o ∈ cur → (o ∉ snapshot ∨ fail o = false) → o ∈ final) := by
  refine ⟨(snapshot.foldl (ConnectionManager.staleStep fail) []).foldl
      ConnectionManager.discardObs cur,
    snapshot.foldl (ConnectionManager.staleStep fail) [],
    ConnectionManager.broadcastFrom_eq snapshot fail cur, ?_, ?_, ?_⟩
  · intro o ho
    exact (ConnectionManager.mem_foldl_discardObs _ _ _ |>.mp ho).1
  · intro o hcur hnot
    by_cases hst : o ∈ snapshot.foldl (ConnectionManager.staleStep fail) []
    · have := (ConnectionManager.mem_foldl_staleStep fail _ _ _).mp hst
      simpa using this
    · exact absurd (ConnectionManager.mem_foldl_discardObs _ _ _ |>.mpr
        ⟨hcur, hst⟩) hnot
  · intro o hcur hok
    refine (ConnectionManager.mem_foldl_discardObs _ _ _).mpr ⟨hcur, ?_⟩
    intro hst
    have := (ConnectionManager.mem_foldl_staleStep fail _ _ _).mp hst
    simp only [List.not_mem_nil, false_or] at this
    rcases hok with hns | hsucc
    · exact hns this.1
    · rw [hsucc] at this
      exact Bool.false_ne_true this.2

/-- Claim C2: after any sequence of connect/disconnect/broadcast registry
operations, a further `broadcast` of event `e` makes exactly one delivery
attempt to every observer in the live set at its snapshot and zero attempts
to any observer not in it; in particular an observer whose `disconnect` has
completed before the snapshot is not in the live set and so receives zero
delivery attempts. -/
theorem C2_broadcast_delivers_exactly_once_to_live
    (ops : List RegOp) (e : Nat) (fail : Nat → Bool) (o : Nat)
    (ops2 : List RegOp) :
    (((applyReg (runReg ops) (.broadcast e fail)).log.drop
        (runReg ops).log.length).count (e, o)
      = if o ∈ (runReg ops).conns then 1 else 0) ∧
    o ∉ (runReg (ops2 ++ [RegOp.disconnect o])).conns := by
  constructor
  · rw [applyReg_broadcast]
    simp only [List.drop_left]
    rw [count_map_pair]
    have hnd := nodup_runReg ops
    by_cases h : o ∈ (runReg ops).conns
    · rw [if_pos h]
      exact List.count_eq_one_of_mem hnd h
    · rw [if_neg h]
      exact List.count_eq_zero_of_not_mem h
  · have hrun : runReg (ops2 ++ [RegOp.disconnect o]) =
        applyReg (runReg ops2) (.disconnect o) := by
      unfold runReg
      rw [List.foldl_append]
      rfl
    rw [hrun]
    intro hmem
    have := ConnectionManager.mem_discardObs.mp hmem
    exact this.2 rfl

/-- Claim C1 counterexample: in `websocket_endpoint` (`main.py` lines
122–142) the `poll_snapshot` send does NOT precede registration — the
endpoint calls `manager.connect(websocket)` first (line 124) and only then
sends the snapshot (lines 126–134). -/
theorem C1_counterexample_snapshot_not_before_register :
    ¬ (snapshotIdx (websocket_endpoint_effects dbEmpty 0) 0 <
        registerIdx (websocket_endpoint_effects dbEmpty 0) 0) := by
  decide

/-- Claim C1 (corrected): on every new observer connection the endpoint
first registers the observer with the Broadcast Registry via
`manager.connect` and only afterwards sends it the `poll_snapshot` event
directly; so the observer is live before the snapshot is constructed, and a
broadcast racing with the connection can be delivered to the observer
before its snapshot (duplicate/out-of-order delivery is possible, silent
loss is not). -/
theorem C1_amended_register_precedes_snapshot (db : DB) (ws : Nat) :
    registerIdx (websocket_endpoint_effects db ws) ws <
      snapshotIdx (websocket_endpoint_effects db ws) ws := by
  unfold registerIdx snapshotIdx websocket_endpoint_effects
  simp [List.findIdx_cons, isRegisterEffect, isSnapshotSendEffect]

/-! ### Store helper lemmas -/

theorem find?_append_some {α : Type} {p : α → Bool} {l1 : List α}
    (l2 : List α) {a : α} (h : l1.find? p = some a) :
    (l1 ++ l2).find? p = some a := by
  rw [List.find?_append, h]
  rfl

theorem find?_append_none {α : Type} {p : α → Bool} {l1 : List α}
    (l2 : List α) (h : l1.find? p = none) :
    (l1 ++ l2).find? p = l2.find? p := by
  rw [List.find?_append, h]
  rfl

theorem find?_map_comm {α : Type} (f : α → α) (p : α → Bool)
    (hf : ∀ a, p (f a) = p a) (l : List α) :
    (l.map f).find? p = (l.find? p).map f := by
  rw [List.find?_map]
  have : p ∘ f = p := funext hf
  rw [this]

/-- Success case of `vote_on_poll`: the committed store is the old store
with exactly the addressed option's `votes` incremented. -/
theorem vote_ok_db {db : DB} {pid oid : Nat} {db' : DB} {pr : PollRead}
    {evs : List Event} (h : vote_on_poll db pid oid = .ok (db', pr, evs)) :
    db' = { db with options := db.options.map (fun o =>
      if o.id == oid then { o with votes := o.votes + 1 } else o) } := by
  simp only [vote_on_poll] at h
  split at h
  · exact Except.noConfusion h
  · split at h
    · exact Except.noConfusion h
    · split at h
      · exact Except.noConfusion h
      · split at h
        · exact Except.noConfusion h
        · simp only [Except.ok.injEq, Prod.mk.injEq] at h
          exact h.1.symm

/-- Success case of `like_poll`: the committed store is the old store with
exactly the addressed poll's `likes` incremented. -/
theorem like_ok_db {db : DB} {pid : Nat} {db' : DB} {pr : PollRead}
    {evs : List Event} (h : like_poll db pid = .ok (db', pr, evs)) :
    db' = { db with polls := db.polls.map (fun p =>
      if p.id == pid then { p with likes := p.likes + 1 } else p) } := by
  simp only [like_poll] at h
  split at h
  · exact Except.noConfusion h
  · split at h
    · exact Except.noConfusion h
    · simp only [Except.ok.injEq, Prod.mk.injEq] at h
      exact h.1.symm

/-- Success case of `create_poll`: the committed store appends one poll row
(question stripped, likes 0, id `nextPollId`) and one option row per
cleaned option text (votes 0, foreign key `nextPollId`). -/
theorem create_ok_db {db : DB} {q : String} {d : Option String}
    {opts : List String} {db' : DB} {pr : PollRead} {evs : List Event}
    (h : create_poll db q d opts = .ok (db', pr, evs)) :
    db' = ⟨db.polls ++ [⟨db.nextPollId, pyStrip q, d, db.clock, 0⟩],
      db.options ++
        (((opts.filter (fun o => pyStrip o != "")).map pyStrip).enum.map
          (fun it => ⟨db.nextOptionId + it.1, it.2, 0, db.nextPollId⟩)),
      db.nextPollId + 1,
      db.nextOptionId + ((opts.filter (fun o => pyStrip o != "")).map pyStrip).length,
      db.clock + 1⟩ := by
  simp only [create_poll] at h
  split at h
  · exact Except.noConfusion h
  · split at h
    · exact Except.noConfusion h
    · simp only [Except.ok.injEq, Prod.mk.injEq] at h
      exact h.1.symm

/-- Claim C3 counterexample: voting with an option id that does not exist
at all (poll 1 exists, option 99 does not) yields HTTP 400, not the 404 the
claim states for an absent option. -/
theorem C3_counterexample_absent_option_gives_400 :
    statusOf (vote_on_poll dbTwoPolls 1 99) = some 400 ∧
    statusOf (vote_on_poll dbTwoPolls 1 99) ≠ some 404 := by
  decide

/-- Claim C3 (corrected): `POST /polls/{id}/vote` fails with 404 exactly
when the addressed poll is absent; it fails with 400 both when the
referenced option is absent and when the option exists but belongs to a
different poll; and on any failure the store is unchanged and no event is
handed to the broadcast registry. -/
theorem C3_amended_vote_error_handling (db : DB) (pid oid : Nat) :
    (db.polls.find? (fun p => p.id == pid) = none →
      vote_on_poll db pid oid = .error ⟨404, "Poll not found"⟩) ∧
    (∀ poll, db.polls.find? (fun p => p.id == pid) = some poll →
      db.options.find? (fun o => o.id == oid) = none →
      vote_on_poll db pid oid =
        .error ⟨400, "Option does not belong to this poll."⟩) ∧
    (∀ poll opt, db.polls.find? (fun p => p.id == pid) = some poll →
      db.options.find? (fun o => o.id == oid) = some opt →
      opt.poll_id ≠ poll.id →
      vote_on_poll db pid oid =
        .error ⟨400, "Option does not belong to this poll."⟩) ∧
    ((vote_on_poll db pid oid).isOk = false →
      dbOf db (vote_on_poll db pid oid) = db ∧
      eventsOf (vote_on_poll db pid oid) = []) := by
  refine ⟨?_, ?_, ?_, ?_⟩
  · intro h
    simp only [vote_on_poll, get_poll_with_options, h]
  · intro poll h1 h2
    simp only [vote_on_poll, get_poll_with_options, h1, h2]
  · intro poll opt h1 h2 h3
    have hb : (opt.poll_id != poll.id) = true := by
      simpa using h3
    simp only [vote_on_poll, get_poll_with_options, h1, h2, hb, if_true]
  · intro h
    cases hv : vote_on_poll db pid oid with
    | ok r =>
      rw [hv] at h
      exact Bool.noConfusion h
    | error e =>
      exact ⟨by simp [dbOf, hv], by simp [eventsOf, hv]⟩

theorem C3_amended_witness :
    (dbTwoPolls.polls.find? (fun p => p.id == 9) = none ∧
      vote_on_poll dbTwoPolls 9 1 = .error ⟨404, "Poll not found"⟩) ∧
    (dbTwoPolls.polls.find? (fun p => p.id == 1) =
        some ⟨1, "Tea or coffee?", none, 0, 0⟩ ∧
      dbTwoPolls.options.find? (fun o => o.id == 99) = none ∧
      vote_on_poll dbTwoPolls 1 99 =
        .error ⟨400, "Option does not belong to this poll."⟩) ∧
    (dbTwoPolls.options.find? (fun o => o.id == 3) =
        some ⟨3, "Cats", 0, 2⟩ ∧
      (2 : Nat) ≠ 1 ∧
      vote_on_poll dbTwoPolls 1 3 =
        .error ⟨400, "Option does not belong to this poll."⟩) ∧
    ((vote_on_poll dbTwoPolls 1 99).isOk = false ∧
      dbOf dbTwoPolls (vote_on_poll dbTwoPolls 1 99) = dbTwoPolls ∧
      eventsOf (vote_on_poll dbTwoPolls 1 99) = []) :=
  ⟨⟨by decide, (C3_amended_vote_error_handling dbTwoPolls 9 1).1 (by decide)⟩,
   ⟨by decide, by decide,
    (C3_amended_vote_error_handling dbTwoPolls 1 99).2.1
      ⟨1, "Tea or coffee?", none, 0, 0⟩ (by decide) (by decide)⟩,
   ⟨by decide, by decide,
    (C3_amended_vote_error_handling dbTwoPolls 1 3).2.2.1
      ⟨1, "Tea or coffee?", none, 0, 0⟩ ⟨3, "Cats", 0, 2⟩
      (by decide) (by decide) (by decide)⟩,
   ⟨by decide,
    (C3_amended_vote_error_handling dbTwoPolls 1 99).2.2.2 (by decide)⟩⟩

/-- Frame lemma for a successful vote: only the addressed option's votes
counter changes, and it goes up by exactly one. -/
theorem vote_frame {db : DB} {pid oid : Nat} {db' : DB} {pr : PollRead}
    {evs : List Event}
    (h : vote_on_poll db pid oid = .ok (db', pr, evs)) :
    votesOf db' oid = (votesOf db oid).map (· + 1) ∧
    (∀ x, x ≠ oid → votesOf db' x = votesOf db x) ∧
    (∀ y, likesOf db' y = likesOf db y) := by
  have hdb := vote_ok_db h
  subst hdb
  have hid : ∀ (o : PollOption) (x : Nat),
      ((if o.id == oid then { o with votes := o.votes + 1 } else o).id == x)
        = (o.id == x) := by
    intro o x
    by_cases hc : (o.id == oid) = true
    · rw [if_pos hc]
    · rw [if_neg hc]
  refine ⟨?_, ?_, ?_⟩
  · unfold votesOf
    rw [show ({ db with options := db.options.map (fun o =>
        if o.id == oid then { o with votes := o.votes + 1 } else o) } : DB).options
      = db.options.map (fun o =>
        if o.id == oid then { o with votes := o.votes + 1 } else o) from rfl]
    rw [find?_map_comm _ _ (fun a => hid a oid)]
    cases hfind : db.options.find? (fun o => o.id == oid) with
    | none => rfl
    | some o =>
      have hpo := List.find?_some hfind
      have hpo' : o.id = oid := by simpa using hpo
      simp [hpo']
  · intro x hx
    unfold votesOf
    rw [show ({ db with options := db.options.map (fun o =>
        if o.id == oid then { o with votes := o.votes + 1 } else o) } : DB).options
      = db.options.map (fun o =>
        if o.id == oid then { o with votes := o.votes + 1 } else o) from rfl]
    rw [find?_map_comm _ _ (fun a => hid a x)]
    cases hfind : db.options.find? (fun o => o.id == x) with
    | none => rfl
    | some o =>
      have hpo := List.find?_some hfind
      have hox : o.id = x := by simpa using hpo
      have hne : o.id ≠ oid := by rw [hox]; exact hx
      simp [hne]
  · intro y
    rfl

/-- Claim C7: a successful vote on option `oid` of a poll increments
exactly that option's `votes` by 1 and leaves every other counter
unchanged: every other option's votes (in this poll and in every other
poll) and every poll's likes keep their prior values. -/
theorem C7_vote_frame (db : DB) (pid oid : Nat) (db' : DB) (pr : PollRead)
    (evs : List Event)
    (h : vote_on_poll db pid oid = .ok (db', pr, evs)) :
    votesOf db' oid = (votesOf db oid).map (· + 1) ∧
    (∀ x, x ≠ oid → votesOf db' x = votesOf db x) ∧
    (∀ y, likesOf db' y = likesOf db y) :=
  vote_frame h

theorem C7_witness :
    vote_on_poll dbTwoPolls 1 1 =
      .ok (dbTwoPollsVote1, prTeaVote1, [Event.poll_updated prTeaVote1]) ∧
    votesOf dbTwoPollsVote1 1 = (votesOf dbTwoPolls 1).map (· + 1) ∧
    votesOf dbTwoPollsVote1 2 = votesOf dbTwoPolls 2 ∧
    likesOf dbTwoPollsVote1 1 = likesOf dbTwoPolls 1 :=
  ⟨by rfl,
   (C7_vote_frame dbTwoPolls 1 1 dbTwoPollsVote1 prTeaVote1
     [Event.poll_updated prTeaVote1] (by rfl)).1,
   (C7_vote_frame dbTwoPolls 1 1 dbTwoPollsVote1 prTeaVote1
     [Event.poll_updated prTeaVote1] (by rfl)).2.1 2 (by decide),
   (C7_vote_frame dbTwoPolls 1 1 dbTwoPollsVote1 prTeaVote1
     [Event.poll_updated prTeaVote1] (by rfl)).2.2 1⟩

/-- Frame lemma for a successful like: only the addressed poll's likes
counter changes, and it goes up by exactly one. -/
theorem like_frame {db : DB} {pid : Nat} {db' : DB} {pr : PollRead}
    {evs : List Event} (h : like_poll db pid = .ok (db', pr, evs)) :
    likesOf db' pid = (likesOf db pid).map (· + 1) ∧
    (∀ y, y ≠ pid → likesOf db' y = likesOf db y) ∧
    (∀ x, votesOf db' x = votesOf db x) := by
  have hdb := like_ok_db h
  subst hdb
  have hid : ∀ (p : Poll) (x : Nat),
      ((if p.id == pid then { p with likes := p.likes + 1 } else p).id == x)
        = (p.id == x) := by
    intro p x
    by_cases hc : (p.id == pid) = true
    · rw [if_pos hc]
    · rw [if_neg hc]
  refine ⟨?_, ?_, ?_⟩
  · unfold likesOf
    rw [show ({ db with polls := db.polls.map (fun p =>
        if p.id == pid then { p with likes := p.likes + 1 } else p) } : DB).polls
      = db.polls.map (fun p =>
        if p.id == pid then { p with likes := p.likes + 1 } else p) from rfl]
    rw [find?_map_comm _ _ (fun a => hid a pid)]
    cases hfind : db.polls.find? (fun p => p.id == pid) with
    | none => rfl
    | some p =>
      have hpo := List.find?_some hfind
      have hpo' : p.id = pid := by simpa using hpo
      simp [hpo']
  · intro y hy
    unfold likesOf
    rw [show ({ db with polls := db.polls.map (fun p =>
        if p.id == pid then { p with likes := p.likes + 1 } else p) } : DB).polls
      = db.polls.map (fun p =>
        if p.id == pid then { p with likes := p.likes + 1 } else p) from rfl]
    rw [find?_map_comm _ _ (fun a => hid a y)]
    cases hfind : db.polls.find? (fun p => p.id == y) with
    | none => rfl
    | some p =>
      have hpo := List.find?_some hfind
      have hox : p.id = y := by simpa using hpo
      have hne : p.id ≠ pid := by rw [hox]; exact hy
      simp [hne]
  · intro x
    rfl

/-- One mutating call never decreases any poll's likes counter. -/
theorem likesOf_applyMut_mono (db : DB) (op : MutOp) (i n : Nat)
    (h : likesOf db i = some n) :
    ∃ m, n ≤ m ∧ likesOf (applyMut db op) i = some m := by
  cases op with
  | create q d opts =>
    show ∃ m, n ≤ m ∧ likesOf (dbOf db (create_poll db q d opts)) i = some m
    cases hc : create_poll db q d opts with
    | error e => exact ⟨n, le_refl n, by simpa [dbOf] using h⟩
    | ok r =>
      obtain ⟨db', pr, evs⟩ := r
      have hshape := create_ok_db hc
      refine ⟨n, le_refl n, ?_⟩
      simp only [dbOf]
      subst hshape
      unfold likesOf at h ⊢
      cases hf : db.polls.find? (fun p => p.id == i) with
      | none => rw [hf] at h; exact Option.noConfusion h
      | some p =>
        rw [hf] at h
        show ((db.polls ++ _).find? (fun p => p.id == i)).map Poll.likes = some n
        rw [find?_append_some _ hf]
        exact h
  | vote pid oid =>
    show ∃ m, n ≤ m ∧ likesOf (dbOf db (vote_on_poll db pid oid)) i = some m
    cases hv : vote_on_poll db pid oid with
    | error e => exact ⟨n, le_refl n, by simpa [dbOf] using h⟩
    | ok r =>
      obtain ⟨db', pr, evs⟩ := r
      refine ⟨n, le_refl n, ?_⟩
      simp only [dbOf]
      exact ((vote_frame hv).2.2 i).trans h
  | like pid =>
    show ∃ m, n ≤ m ∧ likesOf (dbOf db (like_poll db pid)) i = some m
    cases hl : like_poll db pid with
    | error e => exact ⟨n, le_refl n, by simpa [dbOf] using h⟩
    | ok r =>
      obtain ⟨db', pr, evs⟩ := r
      have hframe := like_frame hl
      by_cases hi : i = pid
      · subst hi
        refine ⟨n + 1, Nat.le_succ n, ?_⟩
        simp only [dbOf]
        rw [hframe.1, h]
        rfl
      · refine ⟨n, le_refl n, ?_⟩
        simp only [dbOf]
        rw [hframe.2.1 i hi]
        exact h

/-- One mutating call never decreases any option's votes counter. -/
theorem votesOf_applyMut_mono (db : DB) (op : MutOp) (j n : Nat)
    (h : votesOf db j = some n) :
    ∃ m, n ≤ m ∧ votesOf (applyMut db op) j = some m := by
  cases op with
  | create q d opts =>
    show ∃ m, n ≤ m ∧ votesOf (dbOf db (create_poll db q d opts)) j = some m
    cases hc : create_poll db q d opts with
    | error e => exact ⟨n, le_refl n, by simpa [dbOf] using h⟩
    | ok r =>
      obtain ⟨db', pr, evs⟩ := r
      have hshape := create_ok_db hc
      refine ⟨n, le_refl n, ?_⟩
      simp only [dbOf]
      subst hshape
      unfold votesOf at h ⊢
      cases hf : db.options.find? (fun o => o.id == j) with
      | none => rw [hf] at h; exact Option.noConfusion h
      | some o =>
        rw [hf] at h
        show ((db.options ++ _).find? (fun o => o.id == j)).map
          PollOption.votes = some n
        rw [find?_append_some _ hf]
        exact h
  | vote pid oid =>
    show ∃ m, n ≤ m ∧ votesOf (dbOf db (vote_on_poll db pid oid)) j = some m
    cases hv : vote_on_poll db pid oid with
    | error e => exact ⟨n, le_refl n, by simpa [dbOf] using h⟩
    | ok r =>
      obtain ⟨db', pr, evs⟩ := r
      have hframe := vote_frame hv
      by_cases hj : j = oid
      · subst hj
        refine ⟨n + 1, Nat.le_succ n, ?_⟩
        simp only [dbOf]
        rw [hframe.1, h]
        rfl
      · refine ⟨n, le_refl n, ?_⟩
        simp only [dbOf]
        rw [hframe.2.1 j hj]
        exact h
  | like pid =>
    show ∃ m, n ≤ m ∧ votesOf (dbOf db (like_poll db pid)) j = some m
    cases hl : like_poll db pid with
    | error e => exact ⟨n, le_refl n, by simpa [dbOf] using h⟩
    | ok r =>
      obtain ⟨db', pr, evs⟩ := r
      refine ⟨n, le_refl n, ?_⟩
      simp only [dbOf]
      exact ((like_frame hl).2.2 j).trans h

theorem likesOf_runMuts_mono (ops : List MutOp) :
    ∀ (db : DB) (i n : Nat), likesOf db i = some n →
      ∃ m, n ≤ m ∧ likesOf (runMuts db ops) i = some m := by
  induction ops with
  | nil => intro db i n h; exact ⟨n, le_refl n, h⟩
  | cons op rest ih =>
    intro db i n h
    obtain ⟨m1, hm1, hl1⟩ := likesOf_applyMut_mono db op i n h
    obtain ⟨m2, hm2, hl2⟩ := ih (applyMut db op) i m1 hl1
    exact ⟨m2, le_trans hm1 hm2, hl2⟩

theorem votesOf_runMuts_mono (ops : List MutOp) :
    ∀ (db : DB) (j n : Nat), votesOf db j = some n →
      ∃ m, n ≤ m ∧ votesOf (runMuts db ops) j = some m := by
  induction ops with
  | nil => intro db j n h; exact ⟨n, le_refl n, h⟩
  | cons op rest ih =>
    intro db j n h
    obtain ⟨m1, hm1, hl1⟩ := votesOf_applyMut_mono db op j n h
    obtain ⟨m2, hm2, hl2⟩ := ih (applyMut db op) j m1 hl1
    exact ⟨m2, le_trans hm1 hm2, hl2⟩

/-- Claim C8: a successful like on a poll increments that poll's likes by
exactly 1 and leaves every other poll's likes and all option votes
unchanged; and across any sequence of create/vote/like calls, every poll's
`likes` and every option's `votes` counter is monotonically non-decreasing. -/
theorem C8_like_frame_and_monotonicity :
    (∀ db pid db' pr evs, like_poll db pid = .ok (db', pr, evs) →
      likesOf db' pid = (likesOf db pid).map (· + 1) ∧
      (∀ y, y ≠ pid → likesOf db' y = likesOf db y) ∧
      (∀ x, votesOf db' x = votesOf db x)) ∧
    (∀ db ops i n, likesOf db i = some n →
      ∃ m, n ≤ m ∧ likesOf (runMuts db ops) i = some m) ∧
    (∀ db ops j n, votesOf db j = some n →
      ∃ m, n ≤ m ∧ votesOf (runMuts db ops) j = some m) := by
  refine ⟨?_, ?_, ?_⟩
  · intro db pid db' pr evs h
    exact like_frame h
  · intro db ops i n h
    exact likesOf_runMuts_mono ops db i n h
  · intro db ops j n h
    exact votesOf_runMuts_mono ops db j n h

theorem C8_witness :
    (like_poll dbTwoPolls 1 =
      .ok (dbTwoPollsLike1, prTeaLike1, [Event.poll_updated prTeaLike1]) ∧
      likesOf dbTwoPollsLike1 1 = (likesOf dbTwoPolls 1).map (· + 1) ∧
      votesOf dbTwoPollsLike1 1 = votesOf dbTwoPolls 1) ∧
    (likesOf dbTwoPolls 1 = some 0 ∧
      ∃ m, 0 ≤ m ∧
        likesOf (runMuts dbTwoPolls [MutOp.like 1, MutOp.like 1]) 1 = some m) ∧
    (votesOf dbTwoPolls 1 = some 0 ∧
      ∃ m, 0 ≤ m ∧
        votesOf (runMuts dbTwoPolls [MutOp.vote 1 1, MutOp.create "Q" none ["a", "b"]]) 1 = some m) :=
  ⟨⟨by rfl,
    (C8_like_frame_and_monotonicity.1 dbTwoPolls 1 dbTwoPollsLike1 prTeaLike1
      [Event.poll_updated prTeaLike1] (by rfl)).1,
    (C8_like_frame_and_monotonicity.1 dbTwoPolls 1 dbTwoPollsLike1 prTeaLike1
      [Event.poll_updated prTeaLike1] (by rfl)).2.2 1⟩,
   ⟨by decide,
    C8_like_frame_and_monotonicity.2.1 dbTwoPolls [MutOp.like 1, MutOp.like 1]
      1 0 (by decide)⟩,
   ⟨by decide,
    C8_like_frame_and_monotonicity.2.2 dbTwoPolls
      [MutOp.vote 1 1, MutOp.create "Q" none ["a", "b"]] 1 0 (by decide)⟩⟩

/-- With at least two cleaned options and a fresh `nextPollId`,
`create_poll` succeeds and returns exactly the appended store and the
serialization of the new poll row. -/
theorem create_poll_ok_of_valid (db : DB) (q : String) (d : Option String)
    (opts : List String)
    (hfreshP : ∀ p ∈ db.polls, p.id ≠ db.nextPollId)
    (hlen : 2 ≤ ((opts.filter (fun o => pyStrip o != "")).map pyStrip).length) :
    create_poll db q d opts =
      .ok (⟨db.polls ++ [⟨db.nextPollId, pyStrip q, d, db.clock, 0⟩],
            db.options ++
              ((opts.filter (fun o => pyStrip o != "")).map pyStrip).enum.map
                (fun it => ⟨db.nextOptionId + it.1, it.2, 0, db.nextPollId⟩),
            db.nextPollId + 1,
            db.nextOptionId +
              ((opts.filter (fun o => pyStrip o != "")).map pyStrip).length,
            db.clock + 1⟩,
        serialize_poll
          ⟨db.polls ++ [⟨db.nextPollId, pyStrip q, d, db.clock, 0⟩],
            db.options ++
              ((opts.filter (fun o => pyStrip o != "")).map pyStrip).enum.map
                (fun it => ⟨db.nextOptionId + it.1, it.2, 0, db.nextPollId⟩),
            db.nextPollId + 1,
            db.nextOptionId +
              ((opts.filter (fun o => pyStrip o != "")).map pyStrip).length,
            db.clock + 1⟩
          ⟨db.nextPollId, pyStrip q, d, db.clock, 0⟩,
        [Event.poll_created (serialize_poll
          ⟨db.polls ++ [⟨db.nextPollId, pyStrip q, d, db.clock, 0⟩],
            db.options ++
              ((opts.filter (fun o => pyStrip o != "")).map pyStrip).enum.map
                (fun it => ⟨db.nextOptionId + it.1, it.2, 0, db.nextPollId⟩),
            db.nextPollId + 1,
            db.nextOptionId +
              ((opts.filter (fun o => pyStrip o != "")).map pyStrip).length,
            db.clock + 1⟩
          ⟨db.nextPollId, pyStrip q, d, db.clock, 0⟩)]) := by
  have hnot : ¬ ((opts.filter (fun o => pyStrip o != "")).map pyStrip).length < 2 :=
    not_lt.mpr hlen
  have hpnone : db.polls.find? (fun p => p.id == db.nextPollId) = none := by
    rw [List.find?_eq_none]
    intro p hp
    simp [hfreshP p hp]
  have hget : ∀ (os : List PollOption) (k1 k2 k3 : Nat),
      get_poll_with_options
        (⟨db.polls ++ [⟨db.nextPollId, pyStrip q, d, db.clock, 0⟩], os, k1, k2, k3⟩ : DB)
        db.nextPollId = .ok ⟨db.nextPollId, pyStrip q, d, db.clock, 0⟩ := by
    intro os k1 k2 k3
    have hfind : ((⟨db.polls ++ [⟨db.nextPollId, pyStrip q, d, db.clock, 0⟩],
        os, k1, k2, k3⟩ : DB)).polls.find? (fun p => p.id == db.nextPollId)
        = some ⟨db.nextPollId, pyStrip q, d, db.clock, 0⟩ := by
      show (db.polls ++ [(⟨db.nextPollId, pyStrip q, d, db.clock, 0⟩ : Poll)]).find?
          (fun p => p.id == db.nextPollId)
        = some ⟨db.nextPollId, pyStrip q, d, db.clock, 0⟩
      rw [find?_append_none _ hpnone, List.find?_cons_of_pos _ (by simp)]
    unfold get_poll_with_options
    rw [hfind]
  simp only [create_poll]
  rw [if_neg hnot, hget]

/-- Claim C6: `create_poll` strips the question and each option text; if
fewer than two non-empty option texts remain it fails with a 400 and the
store is unchanged; otherwise it succeeds and the created poll has exactly
one option per remaining text (in order, with the stripped texts), each
with zero votes, and zero likes. -/
theorem C6_create_poll_validation (db : DB) (q : String) (d : Option String)
    (opts : List String)
    (hfreshP : ∀ p ∈ db.polls, p.id ≠ db.nextPollId)
    (hfreshO : ∀ o ∈ db.options, o.poll_id ≠ db.nextPollId) :
    ((((opts.filter (fun o => pyStrip o != "")).map pyStrip).length < 2) →
      create_poll db q d opts =
        .error ⟨400, "A poll requires at least two options."⟩ ∧
      dbOf db (create_poll db q d opts) = db) ∧
    (2 ≤ ((opts.filter (fun o => pyStrip o != "")).map pyStrip).length →
      ∃ db' pr evs, create_poll db q d opts = .ok (db', pr, evs) ∧
        pr.options.length =
          ((opts.filter (fun o => pyStrip o != "")).map pyStrip).length ∧
        pr.options.map PollOptionRead.text =
          (opts.filter (fun o => pyStrip o != "")).map pyStrip ∧
        (∀ x ∈ pr.options, x.votes = 0) ∧
        pr.likes = 0 ∧
        pr.question = pyStrip q) := by
  constructor
  · intro hlen
    have herr : create_poll db q d opts =
        .error ⟨400, "A poll requires at least two options."⟩ := by
      simp only [create_poll]
      rw [if_pos hlen]
    exact ⟨herr, by rw [herr]; rfl⟩
  · intro hlen
    have hnil : db.options.filter (fun o => o.poll_id == db.nextPollId) = [] :=
      List.filter_eq_nil_iff.mpr (fun o ho => by simp [hfreshO o ho])
    have hself : (((opts.filter (fun o => pyStrip o != "")).map pyStrip).enum.map
        (fun it => (⟨db.nextOptionId + it.1, it.2, 0, db.nextPollId⟩ : PollOption))).filter
          (fun o => o.poll_id == db.nextPollId)
        = ((opts.filter (fun o => pyStrip o != "")).map pyStrip).enum.map
            (fun it => (⟨db.nextOptionId + it.1, it.2, 0, db.nextPollId⟩ : PollOption)) := by
      refine List.filter_eq_self.mpr ?_
      intro o ho
      obtain ⟨it, hit, rfl⟩ := List.mem_map.mp ho
      simp
    have hoptions : (serialize_poll
        ⟨db.polls ++ [⟨db.nextPollId, pyStrip q, d, db.clock, 0⟩],
          db.options ++
            ((opts.filter (fun o => pyStrip o != "")).map pyStrip).enum.map
              (fun it => ⟨db.nextOptionId + it.1, it.2, 0, db.nextPollId⟩),
          db.nextPollId + 1,
          db.nextOptionId +
            ((opts.filter (fun o => pyStrip o != "")).map pyStrip).length,
          db.clock + 1⟩
        ⟨db.nextPollId, pyStrip q, d, db.clock, 0⟩).options
        = (((opts.filter (fun o => pyStrip o != "")).map pyStrip).enum.map
            (fun it => (⟨db.nextOptionId + it.1, it.2, 0, db.nextPollId⟩ : PollOption))).map
            serialize_option := by
      show ((db.options ++
          ((opts.filter (fun o => pyStrip o != "")).map pyStrip).enum.map
            (fun it => (⟨db.nextOptionId + it.1, it.2, 0, db.nextPollId⟩ : PollOption))).filter
          (fun o => o.poll_id == db.nextPollId)).map serialize_option = _
      rw [List.filter_append, hnil, hself, List.nil_append]
    refine ⟨_, _, _, create_poll_ok_of_valid db q d opts hfreshP hlen,
      ?_, ?_, ?_, ?_, ?_⟩
    · rw [hoptions]
      simp [List.length_map, List.enum_length]
    · rw [hoptions, List.map_map, List.map_map]
      show List.map Prod.snd
        ((opts.filter (fun o => pyStrip o != "")).map pyStrip).enum = _
      exact List.enum_map_snd _
    · rw [hoptions]
      intro x hx
      obtain ⟨o, ho, rfl⟩ := List.mem_map.mp hx
      obtain ⟨it, hit, rfl⟩ := List.mem_map.mp ho
      rfl
    · rfl
    · rfl

theorem C6_witness :
    ((((["a"].filter (fun o => pyStrip o != "")).map pyStrip).length < 2) ∧
      create_poll dbEmpty "Q" none ["a"] =
        .error ⟨400, "A poll requires at least two options."⟩ ∧
      dbOf dbEmpty (create_poll dbEmpty "Q" none ["a"]) = dbEmpty) ∧
    (2 ≤ ((["a", " ", "b "].filter (fun o => pyStrip o != "")).map pyStrip).length ∧
      ∃ db' pr evs,
        create_poll dbEmpty " Q " none ["a", " ", "b "] = .ok (db', pr, evs) ∧
        pr.options.length =
          ((["a", " ", "b "].filter (fun o => pyStrip o != "")).map pyStrip).length ∧
        pr.options.map PollOptionRead.text =
          (["a", " ", "b "].filter (fun o => pyStrip o != "")).map pyStrip ∧
        (∀ x ∈ pr.options, x.votes = 0) ∧
        pr.likes = 0 ∧
        pr.question = pyStrip " Q ") :=
  ⟨⟨by decide,
    ((C6_create_poll_validation dbEmpty "Q" none ["a"]
      (by decide) (by decide)).1 (by decide)).1,
    ((C6_create_poll_validation dbEmpty "Q" none ["a"]
      (by decide) (by decide)).1 (by decide)).2⟩,
   ⟨by decide,
    (C6_create_poll_validation dbEmpty " Q " none ["a", " ", "b "]
      (by decide) (by decide)).2 (by decide)⟩⟩

theorem dropWS_head {l : List Char} {c : Char} {rest : List Char}
    (h : dropWS l = c :: rest) : c.isWhitespace = false := by
  induction l with
  | nil => exact List.noConfusion h
  | cons a as ih =>
    simp only [dropWS] at h
    split at h
    · exact ih h
    · rename_i hws
      injection h with h1 h2
      subst h1
      simpa using hws

theorem dropWS_suffix (l : List Char) : dropWS l <:+ l := by
  induction l with
  | nil => exact List.suffix_refl _
  | cons a as ih =>
    simp only [dropWS]
    split
    · exact ih.trans (List.suffix_cons a as)
    · exact List.suffix_refl _

theorem getLast?_of_suffix {l1 l2 : List Char} (h : l1 <:+ l2)
    (hne : l1 ≠ []) : l2.getLast? = l1.getLast? := by
  obtain ⟨pre, rfl⟩ := h
  rw [List.getLast?_append]
  cases l1 with
  | nil => exact absurd rfl hne
  | cons c cs =>
    cases hz : (c :: cs).getLast? with
    | none =>
      exact absurd (List.getLast?_eq_none_iff.mp hz) (List.cons_ne_nil c cs)
    | some z => rfl

/-- The stripped string never starts with whitespace. -/
theorem pyStrip_head {s : String} {c : Char} {rest : List Char}
    (h : (pyStrip s).data = c :: rest) : c.isWhitespace = false :=
  dropWS_head h

/-- The stripped string never ends with whitespace. -/
theorem pyStrip_last {s : String} {c : Char}
    (h : (pyStrip s).data.getLast? = some c) : c.isWhitespace = false := by
  have hdata : (pyStrip s).data = dropWS ((dropWS s.data.reverse).reverse) := rfl
  rw [hdata] at h
  cases hd : dropWS ((dropWS s.data.reverse).reverse) with
  | nil => rw [hd] at h; exact Option.noConfusion h
  | cons c0 r0 =>
    have hne : dropWS ((dropWS s.data.reverse).reverse) ≠ [] := by
      rw [hd]; exact List.cons_ne_nil _ _
    have h1 : ((dropWS s.data.reverse).reverse).getLast? =
        (dropWS ((dropWS s.data.reverse).reverse)).getLast? :=
      getLast?_of_suffix (dropWS_suffix _) hne
    have h2 : ((dropWS s.data.reverse).reverse).getLast? =
        (dropWS s.data.reverse).head? := List.getLast?_reverse _
    have h3 : (dropWS s.data.reverse).head? = some c := by
      rw [← h2, h1]; exact h
    cases hw : dropWS s.data.reverse with
    | nil => rw [hw] at h3; exact Option.noConfusion h3
    | cons c1 r1 =>
      rw [hw] at h3
      injection h3 with h4
      subst h4
      exact dropWS_head hw

/-- Claim C9 counterexample: `create_poll` accepts a whitespace-only
question — `POST /polls` with question `" "` and two options succeeds and
persists a poll whose stored question is the empty string, contradicting
the non-emptiness part of the claim. -/
theorem C9_counterexample_empty_question_persisted :
    (create_poll dbEmpty " " none ["a", "b"]).isOk = true ∧
    questionOfResult (create_poll dbEmpty " " none ["a", "b"]) = some "" ∧
    (dbOf dbEmpty (create_poll dbEmpty " " none ["a", "b"])).polls.map
      Poll.question = [""] := by
  decide

/-- Claim C9 (corrected): for every successful `create_poll`, the stored
question is exactly the stripped submitted question — it has no leading or
trailing whitespace — but it may be the empty string: the code never checks
the question for non-emptiness. -/
theorem C9_amended_question_stripped (db : DB) (q : String)
    (d : Option String) (opts : List String) (db' : DB) (pr : PollRead)
    (evs : List Event) (h : create_poll db q d opts = .ok (db', pr, evs)) :
    db'.polls = db.polls ++ [⟨db.nextPollId, pyStrip q, d, db.clock, 0⟩] ∧
    (∀ c rest, (pyStrip q).data = c :: rest → c.isWhitespace = false) ∧
    (∀ c, (pyStrip q).data.getLast? = some c → c.isWhitespace = false) := by
  refine ⟨?_, fun c rest hc => pyStrip_head hc, fun c hc => pyStrip_last hc⟩
  rw [create_ok_db h]

theorem C9_amended_witness :
    create_poll dbEmpty " Q " none ["a", "b"] =
      .ok (dbCreateQ, prCreateQ, [Event.poll_created prCreateQ]) ∧
    dbCreateQ.polls =
      dbEmpty.polls ++
        [⟨dbEmpty.nextPollId, pyStrip " Q ", none, dbEmpty.clock, 0⟩] :=
  ⟨by rfl,
   (C9_amended_question_stripped dbEmpty " Q " none ["a", "b"] dbCreateQ
     prCreateQ [Event.poll_created prCreateQ] (by rfl)).1⟩

theorem C1_amended_witness :
    registerIdx (websocket_endpoint_effects dbTwoPolls 7) 7 <
      snapshotIdx (websocket_endpoint_effects dbTwoPolls 7) 7 :=
  C1_amended_register_precedes_snapshot dbTwoPolls 7

theorem C2_witness :
    (((applyReg (runReg [RegOp.connect 1, RegOp.connect 2, RegOp.disconnect 2])
        (RegOp.broadcast 5 (fun _ => false))).log.drop
        (runReg [RegOp.connect 1, RegOp.connect 2, RegOp.disconnect 2]).log.length).count
        (5, 1)
      = if 1 ∈ (runReg [RegOp.connect 1, RegOp.connect 2,
          RegOp.disconnect 2]).conns then 1 else 0) ∧
    1 ∉ (runReg ([RegOp.connect 1] ++ [RegOp.disconnect 1])).conns :=
  C2_broadcast_delivers_exactly_once_to_live
    [RegOp.connect 1, RegOp.connect 2, RegOp.disconnect 2] 5
    (fun _ => false) 1 [RegOp.connect 1]

theorem C5_witness :
    ∃ final stale,
      ConnectionManager.broadcast [1, 2] (fun n => n == 1) = .ok (final, stale) ∧
      (∀ o, o ∈ stale ↔ o ∈ [1, 2] ∧ (o == 1) = true) ∧
      (∀ o, o ∈ final ↔ o ∈ [1, 2] ∧ (o == 1) = false) :=
  C5_broadcast_contains_failures_and_removes_stale [1, 2] (fun n => n == 1)

theorem C10_witness :
    ∃ final stale,
      ConnectionManager.broadcastFrom [1, 2] (fun n => n == 1) [2, 3] =
        .ok (final, stale) ∧
      (∀ o, o ∈ final → o ∈ [2, 3]) ∧
      (∀ o, o ∈ [2, 3] → o ∉ final → o ∈ [1, 2] ∧ (o == 1) = true) ∧
      (∀ o, o ∈ [2, 3] → (o ∉ [1, 2] ∨ (o == 1) = false) → o ∈ final) :=
  C10_broadcast_only_removes_failed [1, 2] (fun n => n == 1) [2, 3]
